import Mathlib

/-!
Shallow embedding of the chess-app core (TypeScript sources under src/):
the board model and move validator from `src/utils/chessLogic.ts`, the
move-text encoder from `src/utils/notation.ts`, the special-move resolver
from `src/utils/specialMoves.ts`, and the per-click state machine of
`src/components/ChessBoardWithCoordinates.tsx` together with the promotion
handlers of the `useChessGame` hook.

Conventions of the embedding:
* TS `number` coordinates are modelled as `Int` (directions are negative).
* A board is a list of rows, each a list of `Option ChessPiece` cells.
* JS array indexing `board[r][c]`: when `r` is in range but `c` is not,
  JS yields `undefined`, which every use site treats exactly like `null`
  (empty); this is modelled as `none`.  When `r` itself is out of range,
  JS would throw a `TypeError` on the inner index; this is modelled as
  `none` as well (no theorem below depends on an out-of-range row, and the
  theorem about out-of-range coordinates uses an in-range row with an
  out-of-range column, where the embedding agrees with JS exactly).
* `Date.now()` is impure; the timestamp a move records is threaded in as
  an explicit `now` argument.
-/

namespace Chess

inductive PieceColor where
  | white
  | black
deriving DecidableEq, Repr

inductive PieceType where
  | pawn
  | rook
  | knight
  | bishop
  | queen
  | king
deriving DecidableEq, Repr

structure ChessPiece where
  type : PieceType
  color : PieceColor
deriving DecidableEq, Repr

/-- A square is a `[row, col]` pair, as in `src/types/chess.ts`. -/
abbrev Square := Int × Int

abbrev Board := List (List (Option ChessPiece))

structure CastlingRights where
  whiteKingSide : Bool
  whiteQueenSide : Bool
  blackKingSide : Bool
  blackQueenSide : Bool
deriving DecidableEq, Repr

structure PromotionInfo where
  square : Square
  color : PieceColor
deriving DecidableEq, Repr

/-- The `Move` record of `src/types/chess.ts`.  The TS field `notation`
is rendered here as `notationStr`. -/
structure Move where
  fromSq : Square
  toSq : Square
  piece : ChessPiece
  capturedPiece : Option ChessPiece
  notationStr : String
  timestamp : Nat
  isCastling : Bool
  isEnPassant : Bool
  isPromotion : Bool
  promotedTo : Option PieceType
deriving DecidableEq, Repr

structure CapturedPieces where
  white : List ChessPiece
  black : List ChessPiece
deriving DecidableEq, Repr

structure Player where
  name : String
  color : PieceColor
  rating : Option Int
deriving DecidableEq, Repr

structure Players where
  white : Player
  black : Player
deriving DecidableEq, Repr

structure GameState where
  board : Board
  currentPlayer : PieceColor
  selectedSquare : Option Square
  validMoves : List Square
  isCheck : Bool
  isCheckmate : Bool
  gameOver : Bool
  moves : List Move
  capturedPieces : CapturedPieces
  players : Players
  castlingRights : CastlingRights
  enPassantTarget : Option Square
  promotionPending : Option PromotionInfo
deriving DecidableEq, Repr

/-- JS `board[r][c]` (see the fidelity note in the header). -/
def boardGet (b : Board) (r c : Int) : Option ChessPiece :=
  match (if 0 ≤ r then b.get? r.toNat else none) with
  | none => none
  | some row => if 0 ≤ c then (row.get? c.toNat).join else none

/-- Functional update of one cell of a (copied) board, modelling
`newBoard[r][c] = v` after `board.map(row => [...row])`.  Out-of-range
writes never occur on the paths embedded below. -/
def boardSet (b : Board) (r c : Int) (v : Option ChessPiece) : Board :=
  b.mapIdx fun i row =>
    if (i : Int) = r then row.mapIdx (fun j cell => if (j : Int) = c then v else cell)
    else row

/-- `createInitialBoard` of `chessLogic.ts`: the board its fill loops build. -/
def backRankTypes : List PieceType :=
  [.rook, .knight, .bishop, .queen, .king, .bishop, .knight, .rook]

def createInitialBoard : Board :=
  [ backRankTypes.map (fun t => some ⟨t, .black⟩),
    List.replicate 8 (some ⟨.pawn, .black⟩),
    List.replicate 8 none,
    List.replicate 8 none,
    List.replicate 8 none,
    List.replicate 8 none,
    List.replicate 8 (some ⟨.pawn, .white⟩),
    backRankTypes.map (fun t => some ⟨t, .white⟩) ]

def createInitialGameState : GameState where
  board := createInitialBoard
  currentPlayer := .white
  selectedSquare := none
  validMoves := []
  isCheck := false
  isCheckmate := false
  gameOver := false
  moves := []
  capturedPieces := ⟨[], []⟩
  players := ⟨⟨"White Player", .white, some 1200⟩, ⟨"Black Player", .black, some 1200⟩⟩
  castlingRights := ⟨true, true, true, true⟩
  enPassantTarget := none
  promotionPending := none

def isSquareOnBoard (sq : Square) : Bool :=
  decide (0 ≤ sq.1 ∧ sq.1 < 8 ∧ 0 ≤ sq.2 ∧ sq.2 < 8)

def isSameSquare (sq1 sq2 : Square) : Bool :=
  decide (sq1.1 = sq2.1 ∧ sq1.2 = sq2.2)

/-- The body of the `while (currentRow !== toRow || currentCol !== toCol)`
path scan of the sliding validators, unrolled over its (pre-computed)
iteration count: starting at `(r, c)`, check `steps` cells stepping by
`(rowDir, colDir)`. -/
def pathClearAux (b : Board) : Int → Int → Int → Int → Nat → Bool
  | _, _, _, _, 0 => true
  | r, c, rowDir, colDir, n + 1 =>
    (boardGet b r c).isNone && pathClearAux b (r + rowDir) (c + colDir) rowDir colDir n

/-- For the rook/bishop geometry the JS loop visits exactly the squares
strictly between origin and destination: `max |Δrow| |Δcol| - 1` of them. -/
def slideSteps (fromSq toSq : Square) : Nat :=
  max (toSq.1 - fromSq.1).natAbs (toSq.2 - fromSq.2).natAbs - 1

def isValidRookMove (fromSq toSq : Square) (board : Board) : Bool :=
  if fromSq.1 ≠ toSq.1 ∧ fromSq.2 ≠ toSq.2 then false
  else
    let rowDir := if fromSq.1 = toSq.1 then 0 else (toSq.1 - fromSq.1).sign
    let colDir := if fromSq.2 = toSq.2 then 0 else (toSq.2 - fromSq.2).sign
    pathClearAux board (fromSq.1 + rowDir) (fromSq.2 + colDir) rowDir colDir
      (slideSteps fromSq toSq)

def isValidKnightMove (fromSq toSq : Square) : Bool :=
  let rowDiff := (fromSq.1 - toSq.1).natAbs
  let colDiff := (fromSq.2 - toSq.2).natAbs
  decide ((rowDiff = 2 ∧ colDiff = 1) ∨ (rowDiff = 1 ∧ colDiff = 2))

def isValidBishopMove (fromSq toSq : Square) (board : Board) : Bool :=
  if (fromSq.1 - toSq.1).natAbs ≠ (fromSq.2 - toSq.2).natAbs then false
  else
    let rowDir := (toSq.1 - fromSq.1).sign
    let colDir := (toSq.2 - fromSq.2).sign
    pathClearAux board (fromSq.1 + rowDir) (fromSq.2 + colDir) rowDir colDir
      (slideSteps fromSq toSq)

def isValidQueenMove (fromSq toSq : Square) (board : Board) : Bool :=
  isValidRookMove fromSq toSq board || isValidBishopMove fromSq toSq board

def isValidPawnMove (fromSq toSq : Square) (color : PieceColor) (board : Board)
    (gameState : Option GameState) : Bool :=
  let direction : Int := if color = .white then -1 else 1
  let startRow : Int := if color = .white then 6 else 1
  -- Forward move (single step, then two squares from start)
  if fromSq.2 = toSq.2 ∧ toSq.1 = fromSq.1 + direction ∧
      (boardGet board toSq.1 toSq.2).isNone then true
  else if fromSq.2 = toSq.2 ∧ fromSq.1 = startRow ∧ toSq.1 = fromSq.1 + 2 * direction ∧
      (boardGet board toSq.1 toSq.2).isNone then true
  -- Diagonal capture (regular, then en passant)
  else if (fromSq.2 - toSq.2).natAbs = 1 ∧ toSq.1 = fromSq.1 + direction then
    if (boardGet board toSq.1 toSq.2).isSome then true
    else
      match gameState with
      | some gs =>
        match gs.enPassantTarget with
        | some target => isSameSquare toSq target
        | none => false
      | none => false
  else false

def isValidKingMove (fromSq toSq : Square) (board : Board)
    (gameState : Option GameState) : Bool :=
  let rowDiff := (fromSq.1 - toSq.1).natAbs
  let colDiff := (fromSq.2 - toSq.2).natAbs
  -- Regular king move
  if rowDiff ≤ 1 ∧ colDiff ≤ 1 ∧ 0 < rowDiff + colDiff then true
  else
    -- Castling
    match gameState with
    | none => false
    | some gs =>
      if rowDiff = 0 ∧ colDiff = 2 then
        match boardGet board fromSq.1 fromSq.2 with
        | none => false
        | some piece =>
          if piece.type ≠ .king then false
          else
            let color := piece.color
            let kingRow : Int := if color = .white then 7 else 0
            if fromSq.1 ≠ kingRow ∨ fromSq.2 ≠ 4 then false
            -- King side castling
            else if toSq.2 = 6 then
              if !(if color = .white then gs.castlingRights.whiteKingSide
                   else gs.castlingRights.blackKingSide) then false
              else if (boardGet board kingRow 5).isSome ∨
                  (boardGet board kingRow 6).isSome then false
              else
                match boardGet board kingRow 7 with
                | none => false
                | some rook => decide (rook.type = .rook ∧ rook.color = color)
            -- Queen side castling
            else if toSq.2 = 2 then
              if !(if color = .white then gs.castlingRights.whiteQueenSide
                   else gs.castlingRights.blackQueenSide) then false
              else if (boardGet board kingRow 1).isSome ∨
                  (boardGet board kingRow 2).isSome ∨
                  (boardGet board kingRow 3).isSome then false
              else
                match boardGet board kingRow 0 with
                | none => false
                | some rook => decide (rook.type = .rook ∧ rook.color = color)
            else false
      else false

def isValidMove (fromSq toSq : Square) (board : Board)
    (gameState : Option GameState) : Bool :=
  match boardGet board fromSq.1 fromSq.2 with
  | none => false
  | some piece =>
    let targetPiece := boardGet board toSq.1 toSq.2
    if targetPiece.map (·.color) = some piece.color then false
    else
      match piece.type with
      | .pawn => isValidPawnMove fromSq toSq piece.color board gameState
      | .rook => isValidRookMove fromSq toSq board
      | .knight => isValidKnightMove fromSq toSq
      | .bishop => isValidBishopMove fromSq toSq board
      | .queen => isValidQueenMove fromSq toSq board
      | .king => isValidKingMove fromSq toSq board gameState

/-! Notation encoder, from `src/utils/notation.ts`.  The TS names
`squareToNotation` / `generateMoveNotation` carry a `Str` suffix here. -/

def FILES : List String := ["a", "b", "c", "d", "e", "f", "g", "h"]

def RANKS : List String := ["8", "7", "6", "5", "4", "3", "2", "1"]

/-- JS `list[i]` spliced into a template literal: out-of-range indexing
yields `undefined`, which renders as the string "undefined". -/
def listAtStr (l : List String) (i : Int) : String :=
  if 0 ≤ i then l.getD i.toNat "undefined" else "undefined"

def squareToNotationStr (sq : Square) : String :=
  listAtStr FILES sq.2 ++ listAtStr RANKS sq.1

/-- The TS string literal each `PieceType` union member denotes. -/
def pieceTypeName : PieceType → String
  | .pawn => "pawn"
  | .rook => "rook"
  | .knight => "knight"
  | .bishop => "bishop"
  | .queen => "queen"
  | .king => "king"

/-- JS `s.charAt(0).toUpperCase()`. -/
def charAt0Upper (s : String) : String :=
  match s.data with
  | [] => ""
  | c :: _ => String.singleton c.toUpper

def generateMoveNotationStr (fromSq toSq : Square) (piece : ChessPiece)
    (capturedPiece : Option ChessPiece) (isCastling : Bool) (isEnPassant : Bool)
    (isPromotion : Bool) (promotedTo : Option PieceType) : String :=
  -- Castling notation
  if isCastling then
    if toSq.2 > fromSq.2 then "O-O" else "O-O-O"
  else
    -- Piece symbol (except for pawns)
    let sym := if piece.type ≠ .pawn then charAt0Upper (pieceTypeName piece.type) else ""
    -- Capture marker, with the origin file prefixed for pawn captures
    let cap :=
      if capturedPiece.isSome ∨ isEnPassant then
        (if piece.type = .pawn then listAtStr FILES fromSq.2 else "") ++ "x"
      else ""
    -- Destination square, en-passant suffix, promotion suffix
    let ep := if isEnPassant then " e.p." else ""
    let promo :=
      match isPromotion, promotedTo with
      | true, some t => "=" ++ charAt0Upper (pieceTypeName t)
      | _, _ => ""
    sym ++ cap ++ squareToNotationStr toSq ++ ep ++ promo

/-! Special-move resolver, from `src/utils/specialMoves.ts`. -/

def isCastlingMove (fromSq toSq : Square) (piece : ChessPiece) : Bool :=
  if piece.type ≠ .king then false
  else decide (fromSq.1 = toSq.1 ∧ (fromSq.2 - toSq.2).natAbs = 2)

def isEnPassantMove (fromSq toSq : Square) (piece : ChessPiece)
    (gameState : GameState) : Bool :=
  if piece.type ≠ .pawn then false
  else
    match gameState.enPassantTarget with
    | none => false
    | some target =>
      let direction : Int := if piece.color = .white then -1 else 1
      decide ((fromSq.2 - toSq.2).natAbs = 1 ∧ toSq.1 = fromSq.1 + direction) &&
        isSameSquare toSq target

def isPromotionMove (_fromSq toSq : Square) (piece : ChessPiece) : Bool :=
  if piece.type ≠ .pawn then false
  else decide ((piece.color = .white ∧ toSq.1 = 0) ∨ (piece.color = .black ∧ toSq.1 = 7))

def executeCastling (board : Board) (fromSq toSq : Square) : Board :=
  match boardGet board fromSq.1 fromSq.2 with
  | none => board
  | some king =>
    -- Move king
    let b1 := boardSet board fromSq.1 fromSq.2 none
    let b2 := boardSet b1 fromSq.1 toSq.2 (some king)
    -- Move rook
    if toSq.2 = 6 then
      let rook := boardGet b2 fromSq.1 7
      boardSet (boardSet b2 fromSq.1 7 none) fromSq.1 5 rook
    else if toSq.2 = 2 then
      let rook := boardGet b2 fromSq.1 0
      boardSet (boardSet b2 fromSq.1 0 none) fromSq.1 3 rook
    else b2

def executeEnPassant (board : Board) (fromSq toSq : Square) (piece : ChessPiece) :
    Board × Option ChessPiece :=
  -- Move pawn
  let b1 := boardSet board fromSq.1 fromSq.2 none
  let b2 := boardSet b1 toSq.1 toSq.2 (some piece)
  -- Remove captured pawn
  let capturedPawnRow : Int := if piece.color = .white then toSq.1 + 1 else toSq.1 - 1
  let capturedPiece := boardGet b2 capturedPawnRow toSq.2
  (boardSet b2 capturedPawnRow toSq.2 none, capturedPiece)

def updateCastlingRights (gameState : GameState) (move : Move) : CastlingRights :=
  let r0 := gameState.castlingRights
  -- King moves disable all castling for that color
  let r1 :=
    if move.piece.type = .king then
      if move.piece.color = .white then
        { r0 with whiteKingSide := false, whiteQueenSide := false }
      else
        { r0 with blackKingSide := false, blackQueenSide := false }
    else r0
  -- Rook moves disable castling on that side
  if move.piece.type = .rook then
    if move.piece.color = .white ∧ move.fromSq.1 = 7 then
      let r2 := if move.fromSq.2 = 0 then { r1 with whiteQueenSide := false } else r1
      if move.fromSq.2 = 7 then { r2 with whiteKingSide := false } else r2
    else if move.piece.color = .black ∧ move.fromSq.1 = 0 then
      let r2 := if move.fromSq.2 = 0 then { r1 with blackQueenSide := false } else r1
      if move.fromSq.2 = 7 then { r2 with blackKingSide := false } else r2
    else r1
  else r1

def updateEnPassantTarget (move : Move) : Option Square :=
  -- Pawn moves two squares forward sets en passant target
  if move.piece.type = .pawn ∧ (move.fromSq.1 - move.toSq.1).natAbs = 2 then
    some (if move.piece.color = .white then move.fromSq.1 - 1 else move.fromSq.1 + 1,
      move.toSq.2)
  else none

/-! Game-state manager: the click/commit state machine of
`ChessBoardWithCoordinates.tsx` and the promotion handlers of the
`useChessGame` hook (the hook's `executeMove` is textually the same
transition as the component's, spread over the current state). -/

/-- `newCapturedPieces[captured.color === 'white' ? 'black' : 'white'].push(captured)`. -/
def pushCaptured (cp : CapturedPieces) (p : ChessPiece) : CapturedPieces :=
  if p.color = .white then { cp with black := cp.black ++ [p] }
  else { cp with white := cp.white ++ [p] }

def executeMove (gameState : GameState) (fromSq toSq : Square)
    (movingPiece : ChessPiece) (promotedTo : Option PieceType) (now : Nat) : GameState :=
  let captured0 := boardGet gameState.board toSq.1 toSq.2
  -- Handle special moves
  let isCast := isCastlingMove fromSq toSq movingPiece
  let isEP := isEnPassantMove fromSq toSq movingPiece gameState
  let boardAndCaptured :=
    if isCast then (executeCastling gameState.board fromSq toSq, captured0)
    else if isEP then executeEnPassant gameState.board fromSq toSq movingPiece
    else
      -- Regular move, with promotion substitution at the destination
      let b1 := boardSet gameState.board fromSq.1 fromSq.2 none
      let b2 := boardSet b1 toSq.1 toSq.2 (some movingPiece)
      let b3 :=
        match promotedTo with
        | some t => boardSet b2 toSq.1 toSq.2 (some ⟨t, movingPiece.color⟩)
        | none => b2
      (b3, captured0)
  let newBoard := boardAndCaptured.1
  let capturedPiece := boardAndCaptured.2
  -- Update captured pieces
  let newCapturedPieces :=
    match capturedPiece with
    | some p => pushCaptured gameState.capturedPieces p
    | none => gameState.capturedPieces
  -- Generate notation and build the Move record
  let nota := generateMoveNotationStr fromSq toSq movingPiece capturedPiece
    isCast isEP promotedTo.isSome promotedTo
  let newMove : Move :=
    ⟨fromSq, toSq, movingPiece, capturedPiece, nota, now, isCast, isEP,
      promotedTo.isSome, promotedTo⟩
  -- Update game state
  let newCastlingRights := updateCastlingRights gameState newMove
  let newEnPassantTarget := updateEnPassantTarget newMove
  { gameState with
    board := newBoard
    currentPlayer := if gameState.currentPlayer = .white then .black else .white
    selectedSquare := none
    validMoves := []
    moves := gameState.moves ++ [newMove]
    capturedPieces := newCapturedPieces
    castlingRights := newCastlingRights
    enPassantTarget := newEnPassantTarget
    promotionPending := none }

def getValidMovesForPiece (gameState : GameState) (fromSq : Square) : List Square :=
  ((List.range 8).map fun r =>
    (List.range 8).filterMap fun c =>
      let toSq : Square := ((r : Int), (c : Int))
      if isValidMove fromSq toSq gameState.board (some gameState) then some toSq
      else none).flatten

/-- One click on `square`; branches where the component returns without
calling `onGameStateChange` leave the state unchanged. -/
def handleSquareClick (gameState : GameState) (square : Square) (now : Nat) : GameState :=
  let piece := boardGet gameState.board square.1 square.2
  match gameState.selectedSquare with
  | some sel =>
    if isSameSquare sel square then
      { gameState with selectedSquare := none, validMoves := [] }
    else if isValidMove sel square gameState.board (some gameState) then
      match boardGet gameState.board sel.1 sel.2 with
      | none => gameState
      | some movingPiece =>
        -- Check for promotion: defer the move, record the pending promotion
        if isPromotionMove sel square movingPiece then
          { gameState with promotionPending := some ⟨square, movingPiece.color⟩ }
        else executeMove gameState sel square movingPiece none now
    else if piece.map (·.color) = some gameState.currentPlayer then
      { gameState with
        selectedSquare := some square
        validMoves := getValidMovesForPiece gameState square }
    else
      { gameState with selectedSquare := none, validMoves := [] }
  | none =>
    if piece.map (·.color) = some gameState.currentPlayer then
      { gameState with
        selectedSquare := some square
        validMoves := getValidMovesForPiece gameState square }
    else gameState

/-- `handlePromotion` of the `useChessGame` hook: completes the deferred
move with the requested piece type, with no validation of that type. -/
def handlePromotion (gameState : GameState) (pieceType : PieceType) (now : Nat) :
    GameState :=
  match gameState.promotionPending, gameState.selectedSquare with
  | some pending, some sel =>
    match boardGet gameState.board sel.1 sel.2 with
    | none => gameState
    | some movingPiece => executeMove gameState sel pending.square movingPiece (some pieceType) now
  | _, _ => gameState

def handlePromotionCancel (gameState : GameState) : GameState :=
  { gameState with selectedSquare := none, validMoves := [], promotionPending := none }

/-! A user-level action and the states reachable from the initial one. -/

inductive Action where
  | click (square : Square) (now : Nat)
  | promote (pieceType : PieceType) (now : Nat)
  | cancelPromotion
deriving DecidableEq, Repr

def applyAction (gameState : GameState) : Action → GameState
  | .click square now => handleSquareClick gameState square now
  | .promote pieceType now => handlePromotion gameState pieceType now
  | .cancelPromotion => handlePromotionCancel gameState

inductive Reachable : GameState → Prop where
  | init : Reachable createInitialGameState
  | step {gs : GameState} (a : Action) : Reachable gs → Reachable (applyAction gs a)

/-! Support definitions for the statements below: named colors of the two
back ranks, the castling-rights flag selected by the validator for each
color and side, the color whose turn a given ply index is, concrete
scenario boards and states, and two state invariants. -/

def backRank : PieceColor → Int
  | .white => 7
  | .black => 0

def kingSideFlag (gs : GameState) : PieceColor → Bool
  | .white => gs.castlingRights.whiteKingSide
  | .black => gs.castlingRights.blackKingSide

def queenSideFlag (gs : GameState) : PieceColor → Bool
  | .white => gs.castlingRights.whiteQueenSide
  | .black => gs.castlingRights.blackQueenSide

/-- The forward direction of a pawn of the given color (row delta). -/
def pawnDir : PieceColor → Int
  | .white => -1
  | .black => 1

/-- The color whose turn it is after `n` committed plies: white on even
ply indices, black on odd. -/
def plyColor (n : Nat) : PieceColor :=
  if n % 2 = 0 then .white else .black

def oppositeColor : PieceColor → PieceColor
  | .white => .black
  | .black => .white

/-- First character of a string, if any. -/
def strHead (s : String) : Option Char :=
  s.data.head?

def emptyBoard : Board := List.replicate 8 (List.replicate 8 none)

/-- Initial position with a black knight parked on the square a white
pawn's double step would hop over. -/
def blockedBoard : Board := boardSet createInitialBoard 5 4 (some ⟨.knight, .black⟩)

def blockedGs : GameState := { createInitialGameState with board := blockedBoard }

/-- White pawn one step from promotion (plus the two kings), with that
pawn selected and white to move. -/
def promoBoard : Board :=
  boardSet (boardSet (boardSet emptyBoard 1 4 (some ⟨.pawn, .white⟩))
    7 4 (some ⟨.king, .white⟩)) 0 0 (some ⟨.king, .black⟩)

def promoGs : GameState :=
  { createInitialGameState with
    board := promoBoard
    selectedSquare := some ((1 : Int), (4 : Int)) }

/-- The state after clicking the promotion square from `promoGs`: the
deferred-promotion state. -/
def pendGs : GameState := handleSquareClick promoGs ((0 : Int), (4 : Int)) 0

/-- Both kings on their home squares, white rook h1, black rook a8, all
rights intact: white can castle king-side, black queen-side. -/
def castleBoard : Board :=
  boardSet (boardSet (boardSet (boardSet emptyBoard 7 4 (some ⟨.king, .white⟩))
    7 7 (some ⟨.rook, .white⟩)) 0 4 (some ⟨.king, .black⟩)) 0 0 (some ⟨.rook, .black⟩)

def castleGs : GameState := { createInitialGameState with board := castleBoard }

/-- A (never validator-approved) record of a white pawn moving two rows
backwards, from (4,4) to (6,4). -/
def mBack : Move :=
  ⟨((4 : Int), (4 : Int)), ((6 : Int), (4 : Int)), ⟨.pawn, .white⟩, none, "", 0,
    false, false, false, none⟩

/-- The committed record of the double step e2–e4. -/
def mE4 : Move :=
  ⟨((6 : Int), (4 : Int)), ((4 : Int), (4 : Int)), ⟨.pawn, .white⟩, none, "e4", 0,
    false, false, false, none⟩

/-- A king move, for instantiating the castling-rights bookkeeping. -/
def mKingStep : Move :=
  ⟨((7 : Int), (4 : Int)), ((6 : Int), (4 : Int)), ⟨.king, .white⟩, none, "Kd2", 0,
    false, false, false, none⟩

/-- The state after selecting the e2 pawn and clicking e4 from the
initial position. -/
def e4State : GameState :=
  handleSquareClick (handleSquareClick createInitialGameState ((6 : Int), (4 : Int)) 0)
    ((4 : Int), (4 : Int)) 0

/-- Whatever square is selected holds a piece of the player to move. -/
def SelInv (gs : GameState) : Prop :=
  ∀ sq, gs.selectedSquare = some sq →
    ∃ p, boardGet gs.board sq.1 sq.2 = some p ∧ p.color = gs.currentPlayer

/-- The mover recorded at ply `i` of the history has the color of ply
`i`, and the player to move is the color of the next ply. -/
def HistInv (gs : GameState) : Prop :=
  gs.currentPlayer = plyColor gs.moves.length ∧
  ∀ i (h : i < gs.moves.length), (gs.moves.get ⟨i, h⟩).piece.color = plyColor i

def Inv (gs : GameState) : Prop := SelInv gs ∧ HistInv gs

/-! Helper lemmas. -/

theorem get_concat {α : Type} (l : List α) (a : α) (i : Nat) (h : i < (l ++ [a]).length) :
    (l ++ [a]).get ⟨i, h⟩ = if h2 : i < l.length then l.get ⟨i, h2⟩ else a := by
  induction l generalizing i with
  | nil =>
    simp at h
    subst h
    simp
  | cons x xs ih =>
    cases i with
    | zero => simp
    | succ j =>
      simp only [List.cons_append, List.length_cons, List.get_cons_succ]
      rw [ih]
      simp [Nat.succ_lt_succ_iff]

theorem plyColor_succ (n : Nat) : plyColor (n + 1) = oppositeColor (plyColor n) := by
  unfold plyColor oppositeColor
  rcases Nat.mod_two_eq_zero_or_one n with h | h
  · have h1 : (n + 1) % 2 = 1 := by omega
    simp [h, h1]
  · have h1 : (n + 1) % 2 = 0 := by omega
    simp [h, h1]

/-- Committing any move through `executeMove` preserves the state
invariant, provided the mover has the color of the player to move. -/
theorem executeMove_inv (gs : GameState) (fromSq toSq : Square) (p : ChessPiece)
    (promo : Option PieceType) (now : Nat)
    (hh : HistInv gs) (hc : p.color = gs.currentPlayer) :
    Inv (executeMove gs fromSq toSq p promo now) := by
  obtain ⟨hcur, hist⟩ := hh
  refine ⟨?_, ?_, ?_⟩
  · intro sq hsq
    simp [executeMove] at hsq
  · show (executeMove gs fromSq toSq p promo now).currentPlayer =
      plyColor (executeMove gs fromSq toSq p promo now).moves.length
    simp only [executeMove, List.length_append, List.length_cons, List.length_nil]
    rw [plyColor_succ, ← hcur]
    cases gs.currentPlayer <;> rfl
  · intro i h
    simp only [executeMove, List.length_append, List.length_cons, List.length_nil] at h
    simp only [executeMove]
    rw [get_concat]
    split
    · exact hist i ‹_›
    · have : i = gs.moves.length := by omega
      subst this
      simpa [hc] using hcur

/-- Every state reachable from the initial one satisfies both the
selection invariant and the history invariant. -/
theorem reachable_inv {gs : GameState} (h : Reachable gs) : Inv gs := by
  induction h with
  | init =>
    refine ⟨?_, rfl, ?_⟩
    · intro sq hsq
      exact Option.noConfusion hsq
    · intro i h
      simp [createInitialGameState] at h
  | @step gs' a hr ih =>
    obtain ⟨ihSel, ihHist⟩ := ih
    cases a with
    | cancelPromotion =>
      refine ⟨?_, ihHist.1, ihHist.2⟩
      intro sq hsq
      simp [applyAction, handlePromotionCancel] at hsq
    | promote pt now =>
      show Inv (handlePromotion gs' pt now)
      rcases hpp : gs'.promotionPending with _ | pending <;>
        rcases hss : gs'.selectedSquare with _ | sel <;>
          simp only [handlePromotion, hpp, hss]
      · exact ⟨ihSel, ihHist⟩
      · exact ⟨ihSel, ihHist⟩
      · exact ⟨ihSel, ihHist⟩
      · rcases hbp : boardGet gs'.board sel.1 sel.2 with _ | mp <;> simp only [hbp]
        · exact ⟨ihSel, ihHist⟩
        · obtain ⟨p, hp, hpcolor⟩ := ihSel sel hss
          rw [hbp] at hp
          injection hp with hp
          subst hp
          exact executeMove_inv _ _ _ _ _ _ ihHist hpcolor
    | click sq now =>
      show Inv (handleSquareClick gs' sq now)
      rcases hss : gs'.selectedSquare with _ | sel
      · simp only [handleSquareClick, hss]
        by_cases hpc : (boardGet gs'.board sq.1 sq.2).map (·.color) = some gs'.currentPlayer
        · simp only [hpc, if_pos]
          refine ⟨?_, ihHist.1, ihHist.2⟩
          intro sq' hsq'
          simp only at hsq'
          injection hsq' with hsq'
          subst hsq'
          obtain ⟨p, hp, hpcol⟩ := Option.map_eq_some.mp hpc
          exact ⟨p, hp, hpcol⟩
        · simp only [hpc, if_neg, if_false]
          exact ⟨ihSel, ihHist⟩
      · simp only [handleSquareClick, hss]
        by_cases hsame : isSameSquare sel sq = true
        · simp only [hsame, if_pos]
          refine ⟨?_, ihHist.1, ihHist.2⟩
          intro sq' hsq'
          simp only at hsq'
          exact Option.noConfusion hsq'
        · rw [if_neg hsame]
          by_cases hvalid : isValidMove sel sq gs'.board (some gs') = true
          · rw [if_pos hvalid]
            rcases hbp : boardGet gs'.board sel.1 sel.2 with _ | mp <;> simp only [hbp]
            · exact ⟨ihSel, ihHist⟩
            · by_cases hpro : isPromotionMove sel sq mp = true
              · rw [if_pos hpro]
                refine ⟨?_, ihHist.1, ihHist.2⟩
                intro sq' hsq'
                simp only at hsq'
                injection hsq' with hsq'
                subst hsq'
                exact ihSel sel hss
              · rw [if_neg hpro]
                obtain ⟨p, hp, hpcolor⟩ := ihSel sel hss
                rw [hbp] at hp
                injection hp with hp
                subst hp
                exact executeMove_inv _ _ _ _ _ _ ihHist hpcolor
          · rw [if_neg hvalid]
            by_cases hpc : (boardGet gs'.board sq.1 sq.2).map (·.color) =
                some gs'.currentPlayer
            · rw [if_pos hpc]
              refine ⟨?_, ihHist.1, ihHist.2⟩
              intro sq' hsq'
              simp only at hsq'
              injection hsq' with hsq'
              subst hsq'
              obtain ⟨p, hp, hpcol⟩ := Option.map_eq_some.mp hpc
              exact ⟨p, hp, hpcol⟩
            · rw [if_neg hpc]
              refine ⟨?_, ihHist.1, ihHist.2⟩
              intro sq' hsq'
              simp only at hsq'
              exact Option.noConfusion hsq'

/-! The claim theorems. -/

/-- C1: the claim states the validator accepts a pawn's two-square
advance only if both the intervening and the destination squares are
empty.  The code checks only the destination: on `blockedBoard` (the
initial position with a black knight on (5,4)) the white pawn's double
step (6,4) to (4,4) is accepted even though the square it hops over is
occupied.  This evaluates the code at that failing input. -/
theorem pawnDoubleStep_ignores_blocker :
    boardGet blockedBoard 5 4 = some ⟨.knight, .black⟩ ∧
    boardGet blockedBoard 6 4 = some ⟨.pawn, .white⟩ ∧
    boardGet blockedBoard 4 4 = none ∧
    isValidMove ((6 : Int), (4 : Int)) ((4 : Int), (4 : Int)) blockedBoard
      (some blockedGs) = true := by decide

/-- C2: the claim states every move with an out-of-range coordinate is
rejected by a bounds check performed before any board indexing.
`isValidMove` performs no such check: from the initial position the
black knight move (0,1) to (1,-1) targets a square off the board, the
board row is indexed at column -1 (JS `undefined`, treated as an empty
square), and the move is accepted. -/
theorem isValidMove_accepts_offBoard_column :
    isSquareOnBoard ((1 : Int), (-1 : Int)) = false ∧
    isValidMove ((0 : Int), (1 : Int)) ((1 : Int), (-1 : Int)) createInitialBoard
      (some createInitialGameState) = true := by decide

/-- C3: the claim states a promotion request for 'pawn' or 'king' is
rejected, leaving the board, the player to move and `promotionPending`
unchanged.  `handlePromotion` validates nothing: from the deferred
promotion state `pendGs` (white pawn on (1,4) selected, promotion
pending on (0,4)), requesting 'king' commits the move, places a new
white king on (0,4), clears the pending promotion and flips the
player. -/
theorem handlePromotion_commits_king_promotion :
    pendGs.promotionPending = some ⟨((0 : Int), (4 : Int)), .white⟩ ∧
    pendGs.currentPlayer = .white ∧
    (handlePromotion pendGs .king 0).promotionPending = none ∧
    boardGet (handlePromotion pendGs .king 0).board 0 4 = some ⟨.king, .white⟩ ∧
    (handlePromotion pendGs .king 0).currentPlayer = .black := by decide

/-- C4: for every board, auxiliary state and king standing on `fromSq`,
a two-square horizontal move is accepted by the validator if and only if
the king sits on its original square (its color's back rank, column 4),
the matching castling-rights flag is set, every square strictly between
king and rook is empty, and a same-color rook occupies the expected
corner. -/
theorem kingTwoStep_iff_castlingConditions (b : Board) (gs : GameState)
    (fromSq toSq : Square) (c : PieceColor)
    (hk : boardGet b fromSq.1 fromSq.2 = some ⟨.king, c⟩)
    (hrow : fromSq.1 = toSq.1) (hcol : (fromSq.2 - toSq.2).natAbs = 2) :
    isValidMove fromSq toSq b (some gs) = true ↔
      (fromSq = (backRank c, 4) ∧
        ((toSq.2 = 6 ∧ kingSideFlag gs c = true ∧
            boardGet b (backRank c) 5 = none ∧ boardGet b (backRank c) 6 = none ∧
            boardGet b (backRank c) 7 = some ⟨.rook, c⟩) ∨
         (toSq.2 = 2 ∧ queenSideFlag gs c = true ∧
            boardGet b (backRank c) 1 = none ∧ boardGet b (backRank c) 2 = none ∧
            boardGet b (backRank c) 3 = none ∧
            boardGet b (backRank c) 0 = some ⟨.rook, c⟩))) := by
  obtain ⟨fr, fc⟩ := fromSq
  obtain ⟨tr, tc⟩ := toSq
  simp only at hrow hcol hk ⊢
  subst hrow
  unfold isValidMove isValidKingMove
  rw [hk]
  simp only [Option.map_eq_some, Prod.mk.injEq]
  have hd : (fr - fr).natAbs = 0 := by omega
  cases c with
  | white =>
    simp only [backRank, kingSideFlag, queenSideFlag]
    by_cases h1 : fr = 7 ∧ fc = 4
    · obtain ⟨h1a, h1b⟩ := h1
      subst h1a; subst h1b
      have h6 : tc = 6 ∨ tc = 2 := by omega
      rcases h6 with h6 | h6 <;> subst h6
      · rcases hb7 : boardGet b 7 7 with _ | r7
        · rcases hb6 : boardGet b 7 6 with _ | p6 <;>
            rcases hb5 : boardGet b 7 5 with _ | p5 <;> simp_all [hd]
        · obtain ⟨rt, rc⟩ := r7
          rcases hb6 : boardGet b 7 6 with _ | p6 <;>
            rcases hb5 : boardGet b 7 5 with _ | p5 <;> simp_all [hd]
      · rcases hb0 : boardGet b 7 0 with _ | r0
        · rcases hb2 : boardGet b 7 2 with _ | p2 <;>
            rcases hb1 : boardGet b 7 1 with _ | p1 <;>
            rcases hb3 : boardGet b 7 3 with _ | p3 <;> simp_all [hd]
        · obtain ⟨rt, rc⟩ := r0
          rcases hb2 : boardGet b 7 2 with _ | p2 <;>
            rcases hb1 : boardGet b 7 1 with _ | p1 <;>
            rcases hb3 : boardGet b 7 3 with _ | p3 <;> simp_all [hd]
    · have h1' : ¬(fr = 7) ∨ ¬(fc = 4) := by tauto
      simp only [hd]
      rcases hbt : boardGet b fr tc with _ | pt' <;> simp_all
  | black =>
    simp only [backRank, kingSideFlag, queenSideFlag]
    by_cases h1 : fr = 0 ∧ fc = 4
    · obtain ⟨h1a, h1b⟩ := h1
      subst h1a; subst h1b
      have h6 : tc = 6 ∨ tc = 2 := by omega
      rcases h6 with h6 | h6 <;> subst h6
      · rcases hb7 : boardGet b 0 7 with _ | r7
        · rcases hb6 : boardGet b 0 6 with _ | p6 <;>
            rcases hb5 : boardGet b 0 5 with _ | p5 <;> simp_all [hd]
        · obtain ⟨rt, rc⟩ := r7
          rcases hb6 : boardGet b 0 6 with _ | p6 <;>
            rcases hb5 : boardGet b 0 5 with _ | p5 <;> simp_all [hd]
      · rcases hb0 : boardGet b 0 0 with _ | r0
        · rcases hb2 : boardGet b 0 2 with _ | p2 <;>
            rcases hb1 : boardGet b 0 1 with _ | p1 <;>
            rcases hb3 : boardGet b 0 3 with _ | p3 <;> simp_all [hd]
        · obtain ⟨rt, rc⟩ := r0
          rcases hb2 : boardGet b 0 2 with _ | p2 <;>
            rcases hb1 : boardGet b 0 1 with _ | p1 <;>
            rcases hb3 : boardGet b 0 3 with _ | p3 <;> simp_all [hd]
    · have h1' : ¬(fr = 0) ∨ ¬(fc = 4) := by tauto
      simp only [hd]
      rcases hbt : boardGet b fr tc with _ | pt' <;> simp_all

/-- C4 witness: white king-side castling on `castleBoard` (kings home,
white rook h1, rights intact) is accepted. -/
theorem kingTwoStep_iff_castlingConditions_witness :
    isValidMove ((7 : Int), (4 : Int)) ((7 : Int), (6 : Int)) castleBoard
      (some castleGs) = true :=
  (kingTwoStep_iff_castlingConditions castleBoard castleGs ((7 : Int), (4 : Int))
    ((7 : Int), (6 : Int)) .white (by decide) (by decide) (by decide)).mpr (by decide)

/-- C5: when a selected pawn legally moves to its final rank, the click
records the pending promotion (destination square and pawn color) and
leaves board, player and selection untouched; a subsequent cancel clears
the pending promotion and the selection while board and player stay
exactly as before the attempted move. -/
theorem promotionDefer_and_cancel_frame (gs : GameState) (sel toSq : Square)
    (p : ChessPiece) (now : Nat)
    (hsel : gs.selectedSquare = some sel)
    (hp : boardGet gs.board sel.1 sel.2 = some p)
    (hne : isSameSquare sel toSq = false)
    (hvalid : isValidMove sel toSq gs.board (some gs) = true)
    (hpromo : isPromotionMove sel toSq p = true) :
    (handleSquareClick gs toSq now).board = gs.board ∧
    (handleSquareClick gs toSq now).currentPlayer = gs.currentPlayer ∧
    (handleSquareClick gs toSq now).promotionPending = some ⟨toSq, p.color⟩ ∧
    (handleSquareClick gs toSq now).selectedSquare = some sel ∧
    (handlePromotionCancel (handleSquareClick gs toSq now)).board = gs.board ∧
    (handlePromotionCancel (handleSquareClick gs toSq now)).currentPlayer =
      gs.currentPlayer ∧
    (handlePromotionCancel (handleSquareClick gs toSq now)).promotionPending = none ∧
    (handlePromotionCancel (handleSquareClick gs toSq now)).selectedSquare = none := by
  simp [handleSquareClick, hsel, hne, hvalid, hp, hpromo, handlePromotionCancel]

/-- C5 witness: the concrete deferred promotion from `promoGs`. -/
theorem promotionDefer_and_cancel_frame_witness :
    (handleSquareClick promoGs ((0 : Int), (4 : Int)) 0).promotionPending =
      some ⟨((0 : Int), (4 : Int)), .white⟩ ∧
    (handleSquareClick promoGs ((0 : Int), (4 : Int)) 0).board = promoGs.board :=
  have h := promotionDefer_and_cancel_frame promoGs ((1 : Int), (4 : Int))
    ((0 : Int), (4 : Int)) ⟨.pawn, .white⟩ 0
    (by decide) (by decide) (by decide) (by decide) (by decide)
  ⟨h.2.2.1, h.1⟩

/-- C6: from the initial state, selecting the e2 pawn and clicking e4
commits a move recorded as "e4" from (6,4) to (4,4), sets the en passant
target to (5,4), and leaves all four castling rights true. -/
theorem initial_e4_commit_effects :
    e4State.moves.map (fun m => (m.fromSq, m.toSq, m.piece, m.notationStr)) =
      [(((6 : Int), (4 : Int)), ((4 : Int), (4 : Int)), ⟨.pawn, .white⟩, "e4")] ∧
    e4State.enPassantTarget = some ((5 : Int), (4 : Int)) ∧
    e4State.castlingRights = ⟨true, true, true, true⟩ := by decide

/-- C7 counterexample: the claim says the en-passant target is the
square passed over exactly for two-square pawn advances and none for
every other move; on the record `mBack` of a white pawn moving
backwards from (4,4) to (6,4) — not an advance, and with passed-over
square (5,4) — the code returns some (3,4). -/
theorem updateEnPassantTarget_backward_mismatch :
    mBack.piece = ⟨.pawn, .white⟩ ∧
    mBack.fromSq = ((4 : Int), (4 : Int)) ∧ mBack.toSq = ((6 : Int), (4 : Int)) ∧
    updateEnPassantTarget mBack = some ((3 : Int), (4 : Int)) ∧
    ((3 : Int), (4 : Int)) ≠ (((5 : Int), (4 : Int)) : Square) := by decide

/-- C7 (amended): for every genuine two-square pawn advance (same
column, two rows in the pawn's forward direction) the function returns
the passed-over square, and it returns none whenever the mover is not a
pawn or the row distance differs from 2; the trigger tests only piece
type and |row delta| = 2. -/
theorem updateEnPassantTarget_characterization (m : Move) :
    (m.piece.type = .pawn → m.toSq.2 = m.fromSq.2 →
      m.toSq.1 = m.fromSq.1 + 2 * pawnDir m.piece.color →
      updateEnPassantTarget m = some (m.fromSq.1 + pawnDir m.piece.color, m.toSq.2)) ∧
    (m.piece.type ≠ .pawn ∨ (m.fromSq.1 - m.toSq.1).natAbs ≠ 2 →
      updateEnPassantTarget m = none) := by
  constructor
  · intro hp hcol hrow
    have h2 : (m.fromSq.1 - m.toSq.1).natAbs = 2 := by
      cases hc : m.piece.color <;> (rw [hc] at hrow; simp [pawnDir] at hrow; omega)
    cases hc : m.piece.color <;>
      simp [updateEnPassantTarget, hp, h2, hc, pawnDir, Prod.ext_iff] <;> omega
  · intro h
    unfold updateEnPassantTarget
    rw [if_neg]
    tauto

/-- C7 witness: the committed e2–e4 record yields the passed-over square
(5,4). -/
theorem updateEnPassantTarget_characterization_witness :
    updateEnPassantTarget mE4 = some ((5 : Int), (4 : Int)) := by
  have h := (updateEnPassantTarget_characterization mE4).1 (by decide) (by decide)
    (by decide)
  simpa using h

/-- C8: a king move clears exactly the mover's two rights, a rook move
from its color's starting corner clears exactly the matching right,
every other move leaves the rights unchanged, and each right is
pointwise monotone (never re-set once cleared). -/
theorem updateCastlingRights_characterization (gs : GameState) (m : Move) :
    (m.piece.type = .king → m.piece.color = .white →
      updateCastlingRights gs m =
        { gs.castlingRights with whiteKingSide := false, whiteQueenSide := false }) ∧
    (m.piece.type = .king → m.piece.color = .black →
      updateCastlingRights gs m =
        { gs.castlingRights with blackKingSide := false, blackQueenSide := false }) ∧
    (m.piece.type = .rook → m.piece.color = .white → m.fromSq = ((7 : Int), (0 : Int)) →
      updateCastlingRights gs m = { gs.castlingRights with whiteQueenSide := false }) ∧
    (m.piece.type = .rook → m.piece.color = .white → m.fromSq = ((7 : Int), (7 : Int)) →
      updateCastlingRights gs m = { gs.castlingRights with whiteKingSide := false }) ∧
    (m.piece.type = .rook → m.piece.color = .black → m.fromSq = ((0 : Int), (0 : Int)) →
      updateCastlingRights gs m = { gs.castlingRights with blackQueenSide := false }) ∧
    (m.piece.type = .rook → m.piece.color = .black → m.fromSq = ((0 : Int), (7 : Int)) →
      updateCastlingRights gs m = { gs.castlingRights with blackKingSide := false }) ∧
    (m.piece.type ≠ .king → m.piece.type ≠ .rook →
      updateCastlingRights gs m = gs.castlingRights) ∧
    (m.piece.type = .rook → m.piece.color = .white →
      (m.fromSq.1 ≠ 7 ∨ (m.fromSq.2 ≠ 0 ∧ m.fromSq.2 ≠ 7)) →
      updateCastlingRights gs m = gs.castlingRights) ∧
    (m.piece.type = .rook → m.piece.color = .black →
      (m.fromSq.1 ≠ 0 ∨ (m.fromSq.2 ≠ 0 ∧ m.fromSq.2 ≠ 7)) →
      updateCastlingRights gs m = gs.castlingRights) ∧
    ((gs.castlingRights.whiteKingSide = false →
        (updateCastlingRights gs m).whiteKingSide = false) ∧
      (gs.castlingRights.whiteQueenSide = false →
        (updateCastlingRights gs m).whiteQueenSide = false) ∧
      (gs.castlingRights.blackKingSide = false →
        (updateCastlingRights gs m).blackKingSide = false) ∧
      (gs.castlingRights.blackQueenSide = false →
        (updateCastlingRights gs m).blackQueenSide = false)) := by
  unfold updateCastlingRights
  cases hpt : m.piece.type <;> cases hpc : m.piece.color <;>
    simp [hpt, hpc] <;> split_ifs <;> simp_all [Prod.ext_iff]

/-- C8 witness: a white king step from the initial rights clears both
white rights and no black right. -/
theorem updateCastlingRights_characterization_witness :
    updateCastlingRights createInitialGameState mKingStep =
      ⟨false, false, true, true⟩ :=
  (updateCastlingRights_characterization createInitialGameState mKingStep).1 rfl rfl

/-- C9: for every non-castling move of a non-pawn piece the emitted text
begins with the uppercased first letter of the piece-type name, so a
knight move and a king move both begin with 'K' and are rendered
indistinguishably in their leading letter. -/
theorem nonPawn_leading_letter_knight_king (fromSq toSq : Square) (t : PieceType)
    (c : PieceColor) (cap : Option ChessPiece) (ep promo : Bool) (pt : Option PieceType)
    (h : t ≠ .pawn) :
    strHead (generateMoveNotationStr fromSq toSq ⟨t, c⟩ cap false ep promo pt) =
      ((pieceTypeName t).data.head?.map Char.toUpper) ∧
    strHead (generateMoveNotationStr fromSq toSq ⟨.knight, c⟩ cap false ep promo pt) =
      strHead (generateMoveNotationStr fromSq toSq ⟨.king, c⟩ cap false ep promo pt) ∧
    strHead (generateMoveNotationStr fromSq toSq ⟨.knight, c⟩ cap false ep promo pt) =
      some 'K' := by
  refine ⟨?_, ?_, ?_⟩
  · cases t <;> simp_all [generateMoveNotationStr, charAt0Upper, pieceTypeName,
      strHead, String.singleton]
  all_goals
    simp [generateMoveNotationStr, charAt0Upper, pieceTypeName, strHead, String.singleton]

/-- C9 witness: a concrete knight move is rendered with leading letter
'K'. -/
theorem nonPawn_leading_letter_knight_king_witness :
    strHead (generateMoveNotationStr ((7 : Int), (1 : Int)) ((5 : Int), (2 : Int))
      ⟨.knight, .white⟩ none false false false none) = some 'K' :=
  (nonPawn_leading_letter_knight_king ((7 : Int), (1 : Int)) ((5 : Int), (2 : Int))
    .knight .white none false false none (by decide)).2.2

/-- C10: in every state reachable from the initial one through clicks,
promotion choices and promotion cancels, the player to move is the color
of the next ply, and the move recorded at ply i of the history has the
color of ply i — white on even plies, black on odd plies — so the colors
of the history strictly alternate, starting with white. -/
theorem history_colors_alternate (gs : GameState) (h : Reachable gs) :
    gs.currentPlayer = plyColor gs.moves.length ∧
    ∀ i (hi : i < gs.moves.length), (gs.moves.get ⟨i, hi⟩).piece.color = plyColor i :=
  (reachable_inv h).2

/-- C10 witness: the invariant at the initial state. -/
theorem history_colors_alternate_witness :
    createInitialGameState.currentPlayer = plyColor createInitialGameState.moves.length :=
  (history_colors_alternate createInitialGameState Reachable.init).1

end Chess
